import Mathlib

/-!
Formal model of `src/pulser/devices.py`: the abstract `PasqalDevice`
(construction, the `_check_array` validator, the `supported_bases` and
`qubits` accessors) and the concrete `Chadoq2` variant.

Coordinates are rational numbers.  The source compares Euclidean
distances and norms (which involve square roots) against rational
limits; every such comparison `sqrt s ⋈ d` is embedded by its exact
rational equivalent (`sqrtLtQ`, `ltSqrtQ` below), and lemmas
`sqrtLtQ_iff` / `ltSqrtQ_iff` prove the equivalence with the real
square-root comparison.

The collaborators `Register` (src/pulser/register.py) and the channel
classes (src/pulser/channels.py) are not part of the sources; they are
modelled from the spec where marked.
-/

namespace Pulser

/-- Modelled from the spec: the enumerated electronic-transition label
(`basis`) of a channel.  Rydberg channels carry one label, Raman channels
another; the spec treats the labels as opaque comparable values. -/
inductive Basis where
  | rydberg
  | raman
deriving DecidableEq

/-- Modelled from the spec: the Channel collaborator (src/pulser/channels.py
is not under src/): an opaque descriptor exposing a `basis` attribute plus
opaque numeric construction parameters. -/
structure Channel where
  basis : Basis
  params : List ℚ
deriving DecidableEq

namespace Rydberg

/-- Modelled from the spec: `Rydberg.Global(a, b)` builds a channel whose
basis is the Rydberg transition label. -/
def Global (a b : ℚ) : Channel := ⟨Basis.rydberg, [a, b]⟩

/-- Modelled from the spec: `Rydberg.Local(a, b, c)` builds a channel whose
basis is the Rydberg transition label. -/
def Local (a b c : ℚ) : Channel := ⟨Basis.rydberg, [a, b, c]⟩

end Rydberg

namespace Raman

/-- Modelled from the spec: `Raman.Local(a, b, c)` builds a channel whose
basis is the Raman transition label. -/
def Local (a b c : ℚ) : Channel := ⟨Basis.raman, [a, b, c]⟩

end Raman

/-- Modelled from the spec: the Register collaborator
(src/pulser/register.py is not under src/): a validated label→coordinate
structure whose `qubits` attribute maps labels to coordinate vectors. -/
structure Register where
  qubits : List (String × List ℚ)
deriving DecidableEq

/-- Whether all coordinate vectors have the same length. -/
def uniformDim : List (List ℚ) → Bool
  | [] => true
  | p :: rest => rest.all (fun q => q.length == p.length)

/-- The exceptions the constructor can raise.  Each constructor carries
exactly the values the source formats into the corresponding message. -/
inductive DeviceError where
  | typeError
  | registerError
  | tooManyAtoms (limit : ℕ)
  | wrongDimensions (dim : ℕ)
  | minDistance
  | radialBound (limit : ℚ)
  | axisError
deriving DecidableEq

/-- The message text of each exception, transcribed from the source's
format strings (numpy's `AxisError` text and the Register collaborator's
message are not part of the sources and are modelled). -/
def DeviceError.message : DeviceError → String
  | DeviceError.typeError =>
      "The qubits must be a in a dict or Register class instance."
  | DeviceError.registerError =>
      "Invalid register data."
  | DeviceError.tooManyAtoms limit =>
      "Too many atoms in the array, accepts at most" ++ toString limit ++ " atoms."
  | DeviceError.wrongDimensions dim =>
      "All qubit positions must be " ++ toString dim ++ "D vectors."
  | DeviceError.minDistance =>
      "Qubit positions don't respect the minimal distance between atoms for this device."
  | DeviceError.radialBound limit =>
      "All qubits must be at most " ++ toString limit ++ "um away from the center of the array."
  | DeviceError.axisError =>
      "axis 1 is out of bounds for array of dimension 1"

/-- Modelled from the spec: Register construction validates unique labels
and uniform coordinate dimensionality and fails distinctly otherwise. -/
def Register.make (m : List (String × List ℚ)) : Except DeviceError Register :=
  if (m.map Prod.fst).Nodup ∧ uniformDim (m.map Prod.snd) then
    Except.ok ⟨m⟩
  else
    Except.error DeviceError.registerError

/-- Squared Euclidean norm of a coordinate vector. -/
def sqNorm (p : List ℚ) : ℚ := (p.map (fun x => x * x)).sum

/-- Squared Euclidean distance between two coordinate vectors (of equal
length wherever the source evaluates it). -/
def sqDist (p q : List ℚ) : ℚ := sqNorm (List.zipWith (fun a b => a - b) p q)

/-- Exact rational embedding of the comparison `sqrt s < d` (a Euclidean
distance below a limit): for `0 ≤ s` it equals `Real.sqrt s < d`, see
`sqrtLtQ_iff`. -/
def sqrtLtQ (s d : ℚ) : Bool := decide (0 < d ∧ s < d ^ 2)

/-- Exact rational embedding of the comparison `r < sqrt s` (a Euclidean
norm above a limit): for `0 ≤ s` it equals `r < Real.sqrt s`, see
`ltSqrtQ_iff`. -/
def ltSqrtQ (r s : ℚ) : Bool := decide (r < 0 ∨ r ^ 2 < s)

/-- `scipy.spatial.distance.pdist`, squared entrywise: the squared pairwise
Euclidean distances between distinct atoms, in scipy's order. -/
def pdistSq : List (List ℚ) → List ℚ
  | [] => []
  | p :: rest => rest.map (fun q => sqDist p q) ++ pdistSq rest

/-- The per-variant data of a `PasqalDevice` subclass: the five abstract
properties and the channels mapping. -/
structure DeviceSpec where
  name : String
  max_dimensionality : ℕ
  max_atom_num : ℕ
  max_radial_distance : ℚ
  min_atom_distance : ℚ
  channels : List (String × Channel)
deriving DecidableEq

/-- `PasqalDevice.supported_bases`: the set of the `basis` values of the
device's channels. -/
def DeviceSpec.supported_bases (s : DeviceSpec) : Finset Basis :=
  (s.channels.map (fun c => c.2.basis)).toFinset

/-- `if len(atoms) > self.max_atom_num: raise ValueError(...)`. -/
def DeviceSpec.capacity_check (s : DeviceSpec) (atoms : List (List ℚ)) :
    Except DeviceError Unit :=
  if atoms.length > s.max_atom_num then
    Except.error (DeviceError.tooManyAtoms s.max_atom_num)
  else
    Except.ok ()

/-- `for pos in atoms: if len(pos) != self.max_dimensionality: raise ...`:
the loop raises at the first offending position. -/
def DeviceSpec.dimension_check (s : DeviceSpec) (atoms : List (List ℚ)) :
    Except DeviceError Unit :=
  match atoms.find? (fun pos => decide (pos.length ≠ s.max_dimensionality)) with
  | some _ => Except.error (DeviceError.wrongDimensions s.max_dimensionality)
  | none => Except.ok ()

/-- `if len(atoms) > 1: distances = pdist(atoms); if np.min(distances) <
self.min_atom_distance: raise ...` — `np.min(distances) < d` is embedded
as `sqrtLtQ (min of the squared distances) d`. -/
def DeviceSpec.spacing_check (s : DeviceSpec) (atoms : List (List ℚ)) :
    Except DeviceError Unit :=
  if 1 < atoms.length then
    match (pdistSq atoms).min? with
    | some m =>
        if sqrtLtQ m s.min_atom_distance then
          Except.error DeviceError.minDistance
        else
          Except.ok ()
    | none => Except.ok ()
  else
    Except.ok ()

/-- `if np.max(np.linalg.norm(atoms, axis=1)) > self.max_radial_distance:
raise ...` — on an empty atom list `np.linalg.norm(atoms, axis=1)` raises
`numpy.AxisError` (axis 1 of a 1-dimensional empty array), modelled by the
`none` branch; otherwise `max(norms) > r` is embedded as `ltSqrtQ r (max of
the squared norms)`. -/
def DeviceSpec.radial_check (s : DeviceSpec) (atoms : List (List ℚ)) :
    Except DeviceError Unit :=
  match (atoms.map sqNorm).max? with
  | none => Except.error DeviceError.axisError
  | some m =>
      if ltSqrtQ s.max_radial_distance m then
        Except.error (DeviceError.radialBound s.max_radial_distance)
      else
        Except.ok ()

/-- `PasqalDevice._check_array`: the four statements in source order, each
raise aborting the rest. -/
def DeviceSpec.check_array (s : DeviceSpec) (atoms : List (List ℚ)) :
    Except DeviceError Unit := do
  s.capacity_check atoms
  s.dimension_check atoms
  s.spacing_check atoms
  s.radial_check atoms

/-- The argument of `PasqalDevice.__init__`: a dict, a `Register`, or a
value of any other type. -/
inductive QubitData where
  | mapping (m : List (String × List ℚ))
  | register (r : Register)
  | other

/-- A successfully constructed device: its variant data plus the stored
`_register`. -/
structure PasqalDevice where
  spec : DeviceSpec
  _register : Register
deriving DecidableEq

/-- `PasqalDevice.__init__`: dispatch on the argument's type (dict →
build a Register; Register → use it; anything else → `TypeError`), then
validate `list(register.qubits.values())` and store the register. -/
def PasqalDevice.init (s : DeviceSpec) (q : QubitData) :
    Except DeviceError PasqalDevice :=
  match q with
  | QubitData.mapping m =>
      match Register.make m with
      | Except.ok register =>
          (s.check_array (register.qubits.map Prod.snd)).map
            (fun _ => ⟨s, register⟩)
      | Except.error e => Except.error e
  | QubitData.register register =>
      (s.check_array (register.qubits.map Prod.snd)).map
        (fun _ => ⟨s, register⟩)
  | QubitData.other => Except.error DeviceError.typeError

/-- `PasqalDevice.qubits`: the stored register's mapping. -/
def PasqalDevice.qubits (d : PasqalDevice) : List (String × List ℚ) :=
  d._register.qubits

/-- Capacity rule of the spec: more atoms than `max_atom_num`. -/
def CapacityViolated (s : DeviceSpec) (atoms : List (List ℚ)) : Prop :=
  s.max_atom_num < atoms.length

instance (s : DeviceSpec) (atoms : List (List ℚ)) :
    Decidable (CapacityViolated s atoms) := by
  unfold CapacityViolated
  infer_instance

/-- Dimensionality rule of the spec: some coordinate vector's length differs
from `max_dimensionality`. -/
def DimViolated (s : DeviceSpec) (atoms : List (List ℚ)) : Prop :=
  ∃ p ∈ atoms, p.length ≠ s.max_dimensionality

instance (s : DeviceSpec) (atoms : List (List ℚ)) :
    Decidable (DimViolated s atoms) := by
  unfold DimViolated
  infer_instance

/-- Minimum-spacing rule of the spec: some pair of distinct atoms lies at
Euclidean distance strictly below `min_atom_distance` (`sqrtLtQ` is the
embedded comparison).  Lists with fewer than two atoms violate nothing. -/
def SpacingViolated (s : DeviceSpec) (atoms : List (List ℚ)) : Prop :=
  ¬ atoms.Pairwise (fun p q => sqrtLtQ (sqDist p q) s.min_atom_distance = false)

instance (s : DeviceSpec) (atoms : List (List ℚ)) :
    Decidable (SpacingViolated s atoms) := by
  unfold SpacingViolated
  infer_instance

/-- Radial rule of the spec: some atom's Euclidean norm strictly exceeds
`max_radial_distance` (`ltSqrtQ` is the embedded comparison). -/
def RadialViolated (s : DeviceSpec) (atoms : List (List ℚ)) : Prop :=
  ∃ p ∈ atoms, ltSqrtQ s.max_radial_distance (sqNorm p) = true

instance (s : DeviceSpec) (atoms : List (List ℚ)) :
    Decidable (RadialViolated s atoms) := by
  unfold RadialViolated
  infer_instance

/-- The `Chadoq2` variant: its five constant properties and channel dict,
transcribed from the source. -/
def Chadoq2 : DeviceSpec where
  name := "Chadoq2"
  max_dimensionality := 2
  max_atom_num := 100
  max_radial_distance := 50
  min_atom_distance := 4
  channels :=
    [("rydberg_global", Rydberg.Global 50 (5 / 2)),
     ("rydberg_local", Rydberg.Local 50 10 100),
     ("rydberg_local2", Rydberg.Local 50 10 100),
     ("raman_local", Raman.Local 50 10 100)]

/-! ### Supporting lemmas -/

theorem sqNorm_nonneg (p : List ℚ) : 0 ≤ sqNorm p := by
  unfold sqNorm
  apply List.sum_nonneg
  intro x hx
  obtain ⟨y, -, rfl⟩ := List.mem_map.mp hx
  exact mul_self_nonneg y

theorem sqDist_nonneg (p q : List ℚ) : 0 ≤ sqDist p q := sqNorm_nonneg _

/-- Fidelity of the embedded comparison: `sqrtLtQ s d` is exactly the real
comparison `sqrt s < d`. -/
theorem sqrtLtQ_iff {s d : ℚ} :
    sqrtLtQ s d = true ↔ Real.sqrt (s : ℝ) < (d : ℝ) := by
  rw [sqrtLtQ, decide_eq_true_iff]
  constructor
  · rintro ⟨hd, hlt⟩
    have hd' : (0 : ℝ) < (d : ℝ) := by exact_mod_cast hd
    refine (Real.sqrt_lt' hd').mpr ?_
    exact_mod_cast hlt
  · intro h
    have hd' : (0 : ℝ) < (d : ℝ) := lt_of_le_of_lt (Real.sqrt_nonneg _) h
    have hlt : ((s : ℝ)) < ((d : ℝ)) ^ 2 := (Real.sqrt_lt' hd').mp h
    exact ⟨by exact_mod_cast hd', by exact_mod_cast hlt⟩

/-- Fidelity of the embedded comparison: `ltSqrtQ r s` is exactly the real
comparison `r < sqrt s`. -/
theorem ltSqrtQ_iff {r s : ℚ} :
    ltSqrtQ r s = true ↔ (r : ℝ) < Real.sqrt (s : ℝ) := by
  rw [ltSqrtQ, decide_eq_true_iff]
  constructor
  · rintro (hr | hlt)
    · exact lt_of_lt_of_le (by exact_mod_cast hr) (Real.sqrt_nonneg _)
    · rcases lt_or_le r 0 with hr | hr
      · exact lt_of_lt_of_le (by exact_mod_cast hr) (Real.sqrt_nonneg _)
      · refine (Real.lt_sqrt (by exact_mod_cast hr)).mpr ?_
        exact_mod_cast hlt
  · intro h
    rcases lt_or_le r 0 with hr | hr
    · exact Or.inl hr
    · right
      have h2 : ((r : ℝ)) ^ 2 < (s : ℝ) := (Real.lt_sqrt (by exact_mod_cast hr)).mp h
      exact_mod_cast h2

theorem min?_spec {l : List ℚ} {m : ℚ} (h : l.min? = some m) :
    m ∈ l ∧ ∀ b ∈ l, m ≤ b := by
  have : Std.Antisymm ((· : ℚ) ≤ ·) := ⟨fun h1 h2 => le_antisymm h1 h2⟩
  exact (List.min?_eq_some_iff (fun a => le_refl a)
    (fun a b => min_choice a b) (fun a b c => le_min_iff)).mp h

theorem max?_spec {l : List ℚ} {m : ℚ} (h : l.max? = some m) :
    m ∈ l ∧ ∀ b ∈ l, b ≤ m := by
  have : Std.Antisymm ((· : ℚ) ≤ ·) := ⟨fun h1 h2 => le_antisymm h1 h2⟩
  exact (List.max?_eq_some_iff (fun a => le_refl a)
    (fun a b => max_choice a b) (fun a b c => max_le_iff)).mp h

/-- A property holds somewhere in the pairwise-distance list exactly when it
holds of the squared distance of some ordered pair of atoms. -/
theorem exists_pdistSq {P : ℚ → Prop} :
    ∀ {l : List (List ℚ)},
      (∃ x ∈ pdistSq l, P x) ↔ ¬ l.Pairwise (fun p q => ¬ P (sqDist p q)) := by
  intro l
  induction l with
  | nil => simp [pdistSq]
  | cons p rest ih =>
      rw [pdistSq, List.pairwise_cons]
      constructor
      · rintro ⟨x, hx, hPx⟩
        rcases List.mem_append.mp hx with hx | hx
        · obtain ⟨q, hq, rfl⟩ := List.mem_map.mp hx
          intro hc
          exact hc.1 q hq hPx
        · intro hc
          exact ih.mp ⟨x, hx, hPx⟩ hc.2
      · intro hc
        by_cases h1 : ∃ q ∈ rest, P (sqDist p q)
        · obtain ⟨q, hq, hPq⟩ := h1
          exact ⟨sqDist p q, List.mem_append.mpr
            (Or.inl (List.mem_map.mpr ⟨q, hq, rfl⟩)), hPq⟩
        · have h2 : ¬ rest.Pairwise (fun p q => ¬ P (sqDist p q)) := by
            intro hpw
            exact hc ⟨fun q hq hPq => h1 ⟨q, hq, hPq⟩, hpw⟩
          obtain ⟨x, hx, hPx⟩ := ih.mpr h2
          exact ⟨x, List.mem_append.mpr (Or.inr hx), hPx⟩

/-- The spacing rule in terms of the pairwise-distance list. -/
theorem spacingViolated_iff (s : DeviceSpec) (atoms : List (List ℚ)) :
    SpacingViolated s atoms ↔
      ∃ x ∈ pdistSq atoms, sqrtLtQ x s.min_atom_distance = true := by
  rw [SpacingViolated,
    exists_pdistSq (P := fun x => sqrtLtQ x s.min_atom_distance = true)]
  constructor
  · intro h hpw
    exact h (hpw.imp (fun hab => by
      cases hx : sqrtLtQ (sqDist _ _) s.min_atom_distance
      · rfl
      · exact absurd hx hab))
  · intro h hpw
    exact h (hpw.imp (fun hab => by simp [hab]))

theorem capacity_check_eq (s : DeviceSpec) (atoms : List (List ℚ)) :
    s.capacity_check atoms =
      if CapacityViolated s atoms then
        Except.error (DeviceError.tooManyAtoms s.max_atom_num)
      else Except.ok () := by
  unfold DeviceSpec.capacity_check
  split
  · rename_i h
    rw [if_pos (show CapacityViolated s atoms from h)]
  · rename_i h
    rw [if_neg (show ¬ CapacityViolated s atoms from fun hc => h hc)]

theorem dimension_check_eq (s : DeviceSpec) (atoms : List (List ℚ)) :
    s.dimension_check atoms =
      if DimViolated s atoms then
        Except.error (DeviceError.wrongDimensions s.max_dimensionality)
      else Except.ok () := by
  unfold DeviceSpec.dimension_check
  cases hfind : atoms.find? (fun pos => decide (pos.length ≠ s.max_dimensionality)) with
  | none =>
      have hall := List.find?_eq_none.mp hfind
      have hnv : ¬ DimViolated s atoms := by
        rintro ⟨p, hp, hne⟩
        exact hall p hp (decide_eq_true hne)
      rw [if_neg hnv]
  | some w =>
      have hw := List.find?_some hfind
      have hmem := List.mem_of_find?_eq_some hfind
      have hv : DimViolated s atoms := ⟨w, hmem, of_decide_eq_true hw⟩
      rw [if_pos hv]

theorem spacing_check_eq (s : DeviceSpec) (atoms : List (List ℚ)) :
    s.spacing_check atoms =
      if SpacingViolated s atoms then Except.error DeviceError.minDistance
      else Except.ok () := by
  unfold DeviceSpec.spacing_check
  by_cases hlen : 1 < atoms.length
  · rw [if_pos hlen]
    cases hmin : (pdistSq atoms).min? with
    | none =>
        have hnil : pdistSq atoms = [] := List.min?_eq_none_iff.mp hmin
        have hnv : ¬ SpacingViolated s atoms := by
          intro hv
          obtain ⟨x, hx, -⟩ := (spacingViolated_iff s atoms).mp hv
          rw [hnil] at hx
          exact absurd hx (List.not_mem_nil x)
        rw [if_neg hnv]
    | some m =>
        obtain ⟨hmem, hle⟩ := min?_spec hmin
        show (if sqrtLtQ m s.min_atom_distance = true then
            Except.error DeviceError.minDistance else Except.ok ()) =
          if SpacingViolated s atoms then Except.error DeviceError.minDistance
          else Except.ok ()
        by_cases hm : sqrtLtQ m s.min_atom_distance = true
        · have hv : SpacingViolated s atoms :=
            (spacingViolated_iff s atoms).mpr ⟨m, hmem, hm⟩
          rw [if_pos hm, if_pos hv]
        · have hnv : ¬ SpacingViolated s atoms := by
            intro hv
            obtain ⟨x, hx, hxlt⟩ := (spacingViolated_iff s atoms).mp hv
            rw [sqrtLtQ, decide_eq_true_iff] at hxlt
            exact hm (by
              rw [sqrtLtQ, decide_eq_true_iff]
              exact ⟨hxlt.1, lt_of_le_of_lt (hle x hx) hxlt.2⟩)
          rw [if_neg hm, if_neg hnv]
  · rw [if_neg hlen]
    have hnv : ¬ SpacingViolated s atoms := by
      intro hv
      match atoms, hv, hlen with
      | [], hv, _ => exact hv List.Pairwise.nil
      | [p], hv, _ => exact hv (List.pairwise_singleton _ _)
      | p :: q :: rest, _, hlen => exact hlen (by simp)
    rw [if_neg hnv]

theorem radial_check_nil (s : DeviceSpec) :
    s.radial_check [] = Except.error DeviceError.axisError := rfl

theorem radial_check_eq (s : DeviceSpec) (atoms : List (List ℚ))
    (hne : atoms ≠ []) :
    s.radial_check atoms =
      if RadialViolated s atoms then
        Except.error (DeviceError.radialBound s.max_radial_distance)
      else Except.ok () := by
  unfold DeviceSpec.radial_check
  cases hmax : (atoms.map sqNorm).max? with
  | none =>
      exact absurd (List.map_eq_nil_iff.mp (List.max?_eq_none_iff.mp hmax)) hne
  | some m =>
      obtain ⟨hmem, hle⟩ := max?_spec hmax
      show (if ltSqrtQ s.max_radial_distance m = true then
          Except.error (DeviceError.radialBound s.max_radial_distance)
          else Except.ok ()) =
        if RadialViolated s atoms then
          Except.error (DeviceError.radialBound s.max_radial_distance)
        else Except.ok ()
      by_cases hr : ltSqrtQ s.max_radial_distance m = true
      · have hv : RadialViolated s atoms := by
          rw [ltSqrtQ, decide_eq_true_iff] at hr
          obtain ⟨p, hp, hpm⟩ := List.mem_map.mp hmem
          rcases hr with hr | hr
          · exact ⟨p, hp, by rw [ltSqrtQ, decide_eq_true_iff]; exact Or.inl hr⟩
          · exact ⟨p, hp, by
              rw [ltSqrtQ, decide_eq_true_iff, hpm]
              exact Or.inr hr⟩
        rw [if_pos hr, if_pos hv]
      · have hnv : ¬ RadialViolated s atoms := by
          rintro ⟨p, hp, hplt⟩
          rw [ltSqrtQ, decide_eq_true_iff] at hplt
          refine hr ?_
          rw [ltSqrtQ, decide_eq_true_iff]
          rcases hplt with hplt | hplt
          · exact Or.inl hplt
          · exact Or.inr (lt_of_lt_of_le hplt
              (hle (sqNorm p) (List.mem_map.mpr ⟨p, hp, rfl⟩)))
        rw [if_neg hr, if_neg hnv]

/-- Full behaviour of `_check_array` on a nonempty candidate list: the four
rules are consulted in source order and the first violated one determines
the raised error; with no violation the validator passes. -/
theorem check_array_eq (s : DeviceSpec) (atoms : List (List ℚ))
    (hne : atoms ≠ []) :
    s.check_array atoms =
      if CapacityViolated s atoms then
        Except.error (DeviceError.tooManyAtoms s.max_atom_num)
      else if DimViolated s atoms then
        Except.error (DeviceError.wrongDimensions s.max_dimensionality)
      else if SpacingViolated s atoms then Except.error DeviceError.minDistance
      else if RadialViolated s atoms then
        Except.error (DeviceError.radialBound s.max_radial_distance)
      else Except.ok () := by
  have hstep : s.check_array atoms =
      Except.bind (s.capacity_check atoms) (fun _ =>
        Except.bind (s.dimension_check atoms) (fun _ =>
          Except.bind (s.spacing_check atoms) (fun _ => s.radial_check atoms))) := rfl
  rw [hstep, capacity_check_eq, dimension_check_eq, spacing_check_eq,
    radial_check_eq s atoms hne]
  by_cases h1 : CapacityViolated s atoms <;>
    by_cases h2 : DimViolated s atoms <;>
      by_cases h3 : SpacingViolated s atoms <;>
        by_cases h4 : RadialViolated s atoms <;>
          simp [h1, h2, h3, h4, Except.bind]

/-- `__init__` on a well-formed mapping: the Register is built and the
validator decides the outcome. -/
theorem init_mapping_eq (s : DeviceSpec) (m : List (String × List ℚ))
    (h1 : (m.map Prod.fst).Nodup) (h2 : uniformDim (m.map Prod.snd) = true) :
    PasqalDevice.init s (QubitData.mapping m) =
      (s.check_array (m.map Prod.snd)).map (fun _ => ⟨s, ⟨m⟩⟩) := by
  have hmk : Register.make m = Except.ok ⟨m⟩ := by
    unfold Register.make
    rw [if_pos ⟨h1, h2⟩]
  simp only [PasqalDevice.init, hmk]

/-! ### Claim theorems -/

/-- Claim C1: on every candidate atom list the validator consults its four
checks in the fixed order capacity, dimensionality, minimum spacing, radial
bound, stops at the first failing check and raises that rule's error alone;
an input violating several constraints reports the first in this order. -/
theorem check_array_first_violation_reported (s : DeviceSpec)
    (atoms : List (List ℚ)) (hne : atoms ≠ []) :
    s.check_array atoms =
      if CapacityViolated s atoms then
        Except.error (DeviceError.tooManyAtoms s.max_atom_num)
      else if DimViolated s atoms then
        Except.error (DeviceError.wrongDimensions s.max_dimensionality)
      else if SpacingViolated s atoms then Except.error DeviceError.minDistance
      else if RadialViolated s atoms then
        Except.error (DeviceError.radialBound s.max_radial_distance)
      else Except.ok () :=
  check_array_eq s atoms hne

/-- Witness for C1 at a concrete input violating dimensionality, spacing and
the radial bound at once: the dimensionality error (first in order among the
violated rules) is the one reported. -/
theorem check_array_first_violation_reported_witness :
    (DimViolated Chadoq2 [[0], [0], [60]] ∧
      SpacingViolated Chadoq2 [[0], [0], [60]] ∧
      RadialViolated Chadoq2 [[0], [0], [60]]) ∧
    DeviceSpec.check_array Chadoq2 [[0], [0], [60]] =
      Except.error (DeviceError.wrongDimensions 2) := by
  constructor
  · refine ⟨⟨[0], by simp, by simp [Chadoq2]⟩, ?_, ?_⟩
    · intro hpw
      have h := (List.pairwise_cons.mp hpw).1 [0] (by simp)
      rw [sqrtLtQ] at h
      simp only [decide_eq_false_iff_not, not_and, not_lt] at h
      have h2 := h (by norm_num [Chadoq2])
      norm_num [Chadoq2, sqDist, sqNorm] at h2
    · refine ⟨[60], by simp, ?_⟩
      rw [ltSqrtQ, decide_eq_true_iff]
      right
      norm_num [Chadoq2, sqNorm]
  · rw [check_array_first_violation_reported Chadoq2 [[0], [0], [60]] (by simp)]
    rw [if_neg (by simp [CapacityViolated, Chadoq2]),
      if_pos (show DimViolated Chadoq2 [[0], [0], [60]] from
        ⟨[0], by simp, by simp [Chadoq2]⟩)]
    rfl

/-- Claim C2 (refuted — the code crashes): on the empty atom list every one
of the four constraints is vacuously satisfied, yet construction does not
succeed: the radial check's `np.linalg.norm(atoms, axis=1)` raises numpy's
`AxisError` on the empty array, so `__init__` on an empty mapping fails. -/
theorem empty_mapping_raises_axis_error (s : DeviceSpec) :
    (¬ CapacityViolated s [] ∧ ¬ DimViolated s [] ∧
      ¬ SpacingViolated s [] ∧ ¬ RadialViolated s []) ∧
    PasqalDevice.init s (QubitData.mapping []) =
      Except.error DeviceError.axisError := by
  refine ⟨⟨?_, ?_, ?_, ?_⟩, ?_⟩
  · simp [CapacityViolated]
  · simp [DimViolated]
  · simp [SpacingViolated]
  · simp [RadialViolated]
  · have hmk : Register.make [] = Except.ok ⟨[]⟩ := by
      unfold Register.make
      rw [if_pos]
      exact ⟨List.nodup_nil, rfl⟩
    simp only [PasqalDevice.init, hmk]
    rfl

/-- Claim C5: whenever the atom count exceeds `max_atom_num`, construction
fails with the capacity violation, whatever the positions are. -/
theorem capacity_exceeded_reported_first (s : DeviceSpec) (r : Register)
    (h : s.max_atom_num < r.qubits.length) :
    PasqalDevice.init s (QubitData.register r) =
      Except.error (DeviceError.tooManyAtoms s.max_atom_num) := by
  have hcap : s.capacity_check (r.qubits.map Prod.snd) =
      Except.error (DeviceError.tooManyAtoms s.max_atom_num) := by
    unfold DeviceSpec.capacity_check
    rw [if_pos]
    simpa using h
  have hca : s.check_array (r.qubits.map Prod.snd) =
      Except.error (DeviceError.tooManyAtoms s.max_atom_num) := by
    have hstep : s.check_array (r.qubits.map Prod.snd) =
        Except.bind (s.capacity_check (r.qubits.map Prod.snd)) (fun _ =>
          Except.bind (s.dimension_check (r.qubits.map Prod.snd)) (fun _ =>
            Except.bind (s.spacing_check (r.qubits.map Prod.snd)) (fun _ =>
              s.radial_check (r.qubits.map Prod.snd)))) := rfl
    rw [hstep, hcap]
    rfl
  simp only [PasqalDevice.init, hca]
  rfl

/-- Witness for C5: 101 identical degenerate positions on Chadoq2 (capacity
100) — the capacity error is reported even though the positions also break
the dimensionality and spacing rules. -/
theorem capacity_exceeded_reported_first_witness :
    PasqalDevice.init Chadoq2
        (QubitData.register ⟨List.replicate 101 ("q", ([] : List ℚ))⟩) =
      Except.error (DeviceError.tooManyAtoms 100) :=
  capacity_exceeded_reported_first Chadoq2
    ⟨List.replicate 101 ("q", ([] : List ℚ))⟩ (by simp [Chadoq2])

/-- Claim C6: an argument that is neither a mapping nor a Register makes
construction fail with the type error, for every device variant, with no
validation outcome involved. -/
theorem other_input_type_error (s : DeviceSpec) :
    PasqalDevice.init s QubitData.other = Except.error DeviceError.typeError :=
  rfl

/-- Claim C10: the Chadoq2 accessors are exactly the constants of the
source. -/
theorem chadoq2_constants :
    Chadoq2.name = "Chadoq2" ∧ Chadoq2.max_dimensionality = 2 ∧
    Chadoq2.max_atom_num = 100 ∧ Chadoq2.max_radial_distance = 50 ∧
    Chadoq2.min_atom_distance = 4 :=
  ⟨rfl, rfl, rfl, rfl, rfl⟩

/-- Claim C3: with the other three rules satisfied, two atoms at Euclidean
distance exactly `min_atom_distance` pass the spacing check and construction
succeeds (inclusive bound), while two atoms strictly closer make
construction fail with the spacing violation. -/
theorem spacing_inclusive_boundary (s : DeviceSpec) (a b : String)
    (p q : List ℚ) (hab : a ≠ b)
    (hp : p.length = s.max_dimensionality) (hq : q.length = s.max_dimensionality)
    (hcap : 2 ≤ s.max_atom_num)
    (hrp : Real.sqrt ((sqNorm p : ℝ)) ≤ (s.max_radial_distance : ℝ))
    (hrq : Real.sqrt ((sqNorm q : ℝ)) ≤ (s.max_radial_distance : ℝ)) :
    (Real.sqrt ((sqDist p q : ℝ)) = (s.min_atom_distance : ℝ) →
      PasqalDevice.init s (QubitData.mapping [(a, p), (b, q)]) =
        Except.ok ⟨s, ⟨[(a, p), (b, q)]⟩⟩) ∧
    (Real.sqrt ((sqDist p q : ℝ)) < (s.min_atom_distance : ℝ) →
      PasqalDevice.init s (QubitData.mapping [(a, p), (b, q)]) =
        Except.error DeviceError.minDistance) := by
  have h1 : (([(a, p), (b, q)]).map Prod.fst).Nodup := by
    simp [hab]
  have h2 : uniformDim (([(a, p), (b, q)]).map Prod.snd) = true := by
    simp [uniformDim, hp, hq]
  have hmap : ([(a, p), (b, q)]).map Prod.snd = [p, q] := rfl
  have hcapv : ¬ CapacityViolated s [p, q] := by
    simp only [CapacityViolated, List.length_cons, List.length_nil, not_lt]
    omega
  have hdimv : ¬ DimViolated s [p, q] := by
    simp [DimViolated, hp, hq]
  have hradv : ¬ RadialViolated s [p, q] := by
    rintro ⟨x, hx, hxlt⟩
    have hxlt' := ltSqrtQ_iff.mp hxlt
    rcases List.mem_cons.mp hx with rfl | hx
    · exact absurd hxlt' (not_lt_of_le hrp)
    · rcases List.mem_cons.mp hx with rfl | hx
      · exact absurd hxlt' (not_lt_of_le hrq)
      · exact absurd hx (List.not_mem_nil x)
  constructor
  · intro heq
    have hsqf : sqrtLtQ (sqDist p q) s.min_atom_distance = false := by
      rcases Bool.eq_false_or_eq_true (sqrtLtQ (sqDist p q) s.min_atom_distance)
        with ht | hf
      · exact absurd (heq ▸ sqrtLtQ_iff.mp ht) (lt_irrefl _)
      · exact hf
    have hspv : ¬ SpacingViolated s [p, q] := by
      intro hv
      refine hv ?_
      exact List.pairwise_cons.mpr ⟨by
        intro y hy
        rcases List.mem_cons.mp hy with rfl | hy
        · exact hsqf
        · exact absurd hy (List.not_mem_nil y),
        List.pairwise_singleton _ _⟩
    rw [init_mapping_eq s _ h1 h2, hmap,
      check_array_eq s [p, q] (by simp),
      if_neg hcapv, if_neg hdimv, if_neg hspv, if_neg hradv]
    rfl
  · intro hlt
    have hsqt : sqrtLtQ (sqDist p q) s.min_atom_distance = true :=
      sqrtLtQ_iff.mpr hlt
    have hspv : SpacingViolated s [p, q] := by
      intro hpw
      have h := (List.pairwise_cons.mp hpw).1 q (by simp)
      rw [hsqt] at h
      exact Bool.true_eq_false ▸ h
    rw [init_mapping_eq s _ h1 h2, hmap,
      check_array_eq s [p, q] (by simp),
      if_neg hcapv, if_neg hdimv, if_pos hspv]
    rfl

/-- Witness for C3 on Chadoq2 (`min_atom_distance = 4`): atoms exactly 4 µm
apart construct successfully; atoms 3.9 µm apart fail with the spacing
violation. -/
theorem spacing_inclusive_boundary_witness :
    PasqalDevice.init Chadoq2 (QubitData.mapping [("q0", [0, 0]), ("q1", [4, 0])]) =
      Except.ok ⟨Chadoq2, ⟨[("q0", [0, 0]), ("q1", [4, 0])]⟩⟩ ∧
    PasqalDevice.init Chadoq2 (QubitData.mapping [("q0", [0, 0]), ("q1", [39/10, 0])]) =
      Except.error DeviceError.minDistance := by
  constructor
  · refine (spacing_inclusive_boundary Chadoq2 "q0" "q1" [0, 0] [4, 0]
      (by decide) (by simp [Chadoq2]) (by simp [Chadoq2]) (by norm_num [Chadoq2])
      ?_ ?_).1 ?_
    · rw [show sqNorm [0, 0] = 0 by norm_num [sqNorm]]
      norm_num [Chadoq2, Real.sqrt_zero]
    · rw [show sqNorm [4, 0] = 16 by norm_num [sqNorm]]
      rw [show ((16 : ℚ) : ℝ) = 4 ^ 2 by norm_num]
      rw [Real.sqrt_sq (by norm_num)]
      norm_num [Chadoq2]
    · rw [show sqDist [0, 0] [4, 0] = 16 by norm_num [sqDist, sqNorm]]
      rw [show ((16 : ℚ) : ℝ) = 4 ^ 2 by norm_num]
      rw [Real.sqrt_sq (by norm_num)]
      norm_num [Chadoq2]
  · refine (spacing_inclusive_boundary Chadoq2 "q0" "q1" [0, 0] [39/10, 0]
      (by decide) (by simp [Chadoq2]) (by simp [Chadoq2]) (by norm_num [Chadoq2])
      ?_ ?_).2 ?_
    · rw [show sqNorm [0, 0] = 0 by norm_num [sqNorm]]
      norm_num [Chadoq2, Real.sqrt_zero]
    · rw [show sqNorm [39/10, 0] = 1521/100 by norm_num [sqNorm]]
      have : Real.sqrt ((1521/100 : ℚ) : ℝ) ≤ 4 := by
        rw [show ((1521/100 : ℚ) : ℝ) = 1521/100 by norm_num]
        refine Real.sqrt_le_iff.mpr ⟨by norm_num, by norm_num⟩
      refine le_trans this (by norm_num [Chadoq2])
    · rw [show sqDist [0, 0] [39/10, 0] = 1521/100 by norm_num [sqDist, sqNorm]]
      have h4 : ((Chadoq2.min_atom_distance : ℚ) : ℝ) = 4 := by
        norm_num [Chadoq2]
      rw [h4, show ((1521/100 : ℚ) : ℝ) = 1521/100 by norm_num]
      refine (Real.sqrt_lt' (by norm_num)).mpr (by norm_num)

/-- Claim C4: with capacity, dimensionality and spacing satisfied, a list
whose atoms all have Euclidean norm at most `max_radial_distance` passes the
validator (inclusive bound), while a list containing an atom with norm
strictly above it fails with the radial violation. -/
theorem radial_inclusive_boundary (s : DeviceSpec) (atoms : List (List ℚ))
    (hne : atoms ≠ [])
    (hcap : atoms.length ≤ s.max_atom_num)
    (hdim : ∀ p ∈ atoms, p.length = s.max_dimensionality)
    (hsp : ¬ SpacingViolated s atoms) :
    ((∀ p ∈ atoms, Real.sqrt ((sqNorm p : ℝ)) ≤ (s.max_radial_distance : ℝ)) →
      s.check_array atoms = Except.ok ()) ∧
    ((∃ p ∈ atoms, (s.max_radial_distance : ℝ) < Real.sqrt ((sqNorm p : ℝ))) →
      s.check_array atoms =
        Except.error (DeviceError.radialBound s.max_radial_distance)) := by
  have hcapv : ¬ CapacityViolated s atoms := by
    simp only [CapacityViolated, not_lt]
    exact hcap
  have hdimv : ¬ DimViolated s atoms := by
    rintro ⟨x, hx, hxne⟩
    exact hxne (hdim x hx)
  constructor
  · intro hall
    have hradv : ¬ RadialViolated s atoms := by
      rintro ⟨x, hx, hxlt⟩
      exact absurd (ltSqrtQ_iff.mp hxlt) (not_lt_of_le (hall x hx))
    rw [check_array_eq s atoms hne,
      if_neg hcapv, if_neg hdimv, if_neg hsp, if_neg hradv]
  · rintro ⟨x, hx, hxlt⟩
    have hradv : RadialViolated s atoms := ⟨x, hx, ltSqrtQ_iff.mpr hxlt⟩
    rw [check_array_eq s atoms hne,
      if_neg hcapv, if_neg hdimv, if_neg hsp, if_pos hradv]

/-- Witness for C4 on Chadoq2 (`max_radial_distance = 50`): a single atom at
norm exactly 50 passes; a single atom at norm 51 fails with the radial
violation. -/
theorem radial_inclusive_boundary_witness :
    DeviceSpec.check_array Chadoq2 [[50, 0]] = Except.ok () ∧
    DeviceSpec.check_array Chadoq2 [[51, 0]] =
      Except.error (DeviceError.radialBound 50) := by
  constructor
  · refine (radial_inclusive_boundary Chadoq2 [[50, 0]] (by simp)
      (by norm_num [Chadoq2]) (by simp [Chadoq2]) ?_).1 ?_
    · intro hpw
      exact hpw (List.pairwise_singleton _ _)
    · intro p hp
      rcases List.mem_cons.mp hp with rfl | hp
      · rw [show sqNorm [50, 0] = 2500 by norm_num [sqNorm]]
        rw [show ((2500 : ℚ) : ℝ) = 50 ^ 2 by norm_num]
        rw [Real.sqrt_sq (by norm_num)]
        norm_num [Chadoq2]
      · exact absurd hp (List.not_mem_nil p)
  · refine (radial_inclusive_boundary Chadoq2 [[51, 0]] (by simp)
      (by norm_num [Chadoq2]) (by simp [Chadoq2]) ?_).2 ?_
    · intro hpw
      exact hpw (List.pairwise_singleton _ _)
    · refine ⟨[51, 0], by simp, ?_⟩
      rw [show sqNorm [51, 0] = 2601 by norm_num [sqNorm]]
      rw [show ((2601 : ℚ) : ℝ) = 51 ^ 2 by norm_num]
      rw [Real.sqrt_sq (by norm_num)]
      norm_num [Chadoq2]

/-- Claim C7: `supported_bases` is the set of distinct `basis` values of the
channel entries, and appending a channel whose basis is already present
leaves its cardinality unchanged. -/
theorem supported_bases_distinct_values (s : DeviceSpec) (nm : String)
    (c : Channel) (h : c.basis ∈ s.supported_bases) :
    (∀ b : Basis, b ∈ s.supported_bases ↔
      ∃ pc ∈ s.channels, (Prod.snd pc).basis = b) ∧
    (DeviceSpec.supported_bases
        ⟨s.name, s.max_dimensionality, s.max_atom_num, s.max_radial_distance,
          s.min_atom_distance, s.channels ++ [(nm, c)]⟩).card =
      s.supported_bases.card := by
  constructor
  · intro b
    simp [DeviceSpec.supported_bases]
  · have hset : DeviceSpec.supported_bases
        ⟨s.name, s.max_dimensionality, s.max_atom_num, s.max_radial_distance,
          s.min_atom_distance, s.channels ++ [(nm, c)]⟩ =
        s.supported_bases ∪ {c.basis} := by
      simp [DeviceSpec.supported_bases, List.map_append]
    rw [hset, Finset.union_eq_left.mpr (Finset.singleton_subset_iff.mpr h)]

/-- Witness for C7 on Chadoq2, whose `rydberg_local` and `rydberg_local2`
channels already share a basis: appending yet another channel with an
existing basis does not change the number of supported bases (which is 2,
from 4 channels). -/
theorem supported_bases_distinct_values_witness :
    Chadoq2.supported_bases.card = 2 ∧ Chadoq2.channels.length = 4 ∧
    (∀ b : Basis, b ∈ Chadoq2.supported_bases ↔
      ∃ pc ∈ Chadoq2.channels, (Prod.snd pc).basis = b) ∧
    (DeviceSpec.supported_bases
        ⟨Chadoq2.name, Chadoq2.max_dimensionality, Chadoq2.max_atom_num,
          Chadoq2.max_radial_distance, Chadoq2.min_atom_distance,
          Chadoq2.channels ++ [("rydberg_local3", Rydberg.Local 50 10 100)]⟩).card =
      Chadoq2.supported_bases.card :=
  ⟨by decide, by decide,
    supported_bases_distinct_values Chadoq2 "rydberg_local3"
      (Rydberg.Local 50 10 100) (by decide)⟩

/-- Claim C8 (refuted for the spacing rule): on Chadoq2, two atoms 3.9 µm
apart do fail with the spacing violation, but that violation's message is
the source's fixed string, which contains no digit at all — in particular it
does not cite the limit 4. -/
theorem spacing_message_lacks_limit_cex :
    PasqalDevice.init Chadoq2
        (QubitData.mapping [("q0", [0, 0]), ("q1", [39/10, 0])]) =
      Except.error DeviceError.minDistance ∧
    DeviceError.minDistance.message.toList.all (fun ch => decide (¬ ch.isDigit)) = true := by
  constructor
  · simp [PasqalDevice.init, Register.make, uniformDim, DeviceSpec.check_array,
      DeviceSpec.capacity_check, DeviceSpec.dimension_check,
      DeviceSpec.spacing_check, DeviceSpec.radial_check, Chadoq2, pdistSq,
      sqDist, sqNorm, sqrtLtQ, ltSqrtQ, List.min?, List.max?, List.find?,
      Except.bind]
    norm_num
    rfl
  · decide

/-- Claim C8 as amended: the capacity, dimensionality and radial violation
messages carry the violated limit value, but the spacing message does not
(it contains no digit), and the 3.9 µm Chadoq2 input raises exactly that
spacing violation. -/
theorem violation_messages_carry_limits :
    (∀ n : ℕ, ∃ u v, (DeviceError.tooManyAtoms n).message = u ++ toString n ++ v) ∧
    (∀ n : ℕ, ∃ u v, (DeviceError.wrongDimensions n).message = u ++ toString n ++ v) ∧
    (∀ x : ℚ, ∃ u v, (DeviceError.radialBound x).message = u ++ toString x ++ v) ∧
    DeviceError.minDistance.message.toList.all (fun ch => decide (¬ ch.isDigit)) = true ∧
    PasqalDevice.init Chadoq2
        (QubitData.mapping [("q0", [0, 0]), ("q1", [39/10, 0])]) =
      Except.error DeviceError.minDistance := by
  refine ⟨fun n => ⟨"Too many atoms in the array, accepts at most", " atoms.", rfl⟩,
    fun n => ⟨"All qubit positions must be ", "D vectors.", rfl⟩,
    fun x => ⟨"All qubits must be at most ",
      "um away from the center of the array.", rfl⟩,
    by decide, ?_⟩
  simp [PasqalDevice.init, Register.make, uniformDim, DeviceSpec.check_array,
    DeviceSpec.capacity_check, DeviceSpec.dimension_check,
    DeviceSpec.spacing_check, DeviceSpec.radial_check, Chadoq2, pdistSq,
    sqDist, sqNorm, sqrtLtQ, ltSqrtQ, List.min?, List.max?, List.find?,
    Except.bind]
  norm_num
  rfl

end Pulser
